import Mathlib

/-!
Shallow embedding of the dnscheck tool (src/main.go) and verification of
the specification's claims about it.

Modelling conventions:
* Go strings are Lean `String`s; Go's byte-level `strings.HasPrefix` and
  `strings.Contains` are embedded as char-list prefix / infix tests, which
  coincide with the byte-level tests on valid UTF-8 data.
* The network is an oracle: each (endpoint index, attempt index) pair is
  mapped to the outcome of that HTTP attempt, described at the level the Go
  code observes it (transport error / status code / body read / decoded
  JSON document).
* `time.Sleep`, `limiter.Wait` and HTTP attempts are recorded as events in
  a trace, so that temporal claims become claims about traces.
* `float64` percentages are modelled as exact rationals (ℚ).
-/

/-- Embeds Go `strings.HasPrefix s pre` (byte prefix; on UTF-8 data this is
the char-list prefix test). -/
def goHasPre (s pre : String) : Bool :=
  pre.data.isPrefixOf s.data

/-- Embeds Go `strings.Contains s sub` (byte substring; on UTF-8 data this
is the char-list infix test). -/
def goContains (s sub : String) : Bool :=
  decide (sub.data <:+: s.data)

/-- A decoded JSON value, as far as the Go code inspects it
(`map[string]interface{}` values: only string values matter). -/
inductive JsonVal where
  | str (s : String)
  | num (n : Int)
  | boolean (b : Bool)
  | null
  | other
deriving DecidableEq

/-- The decoded JSON object (`IPInfoRaw`): an association list with unique
keys standing for the Go map. -/
abbrev JsonDoc := List (String × JsonVal)

/-- Rendering of a `JsonVal` used for the diagnostic message (`%v`). -/
def jsonValText : JsonVal → String
  | JsonVal.str s => s
  | JsonVal.num n => toString n
  | JsonVal.boolean b => toString b
  | JsonVal.null => "<nil>"
  | JsonVal.other => "<value>"

/-- Rendering of a `JsonDoc` used for the diagnostic message (`%v`). -/
def jsonDocText (d : JsonDoc) : String :=
  String.intercalate " " (d.map fun kv => kv.1 ++ ":" ++ jsonValText kv.2)

/-- `IPCheckResult` from main.go: IP, returned label (`ActualLLC`), and the
lookup error (`nil` ↦ `none`). -/
structure IPCheckResult where
  IP : String
  ActualLLC : String
  Error : Option String
deriving DecidableEq

/-- `DomainResult` from main.go. -/
structure DomainResult where
  Domain : String
  Expected : List String
  IPResults : List IPCheckResult
  IsPolluted : Bool
  Summary : String
deriving DecidableEq

/-- `DomainConfig` from main.go. -/
structure DomainConfig where
  Name : String
  ExpectedLlcs : List String
deriving DecidableEq

/-- What one HTTP attempt against one endpoint yields, as observed by
`queryLLCFromAPI`: a transport error from `client.Get`, or a response with
a status code and a body outcome. -/
inductive BodyResult where
  | readErr (msg : String)
  | badJson (msg : String)
  | doc (d : JsonDoc)
deriving DecidableEq

/-- Outcome of `client.Get` for one attempt. -/
inductive Attempt where
  | getErr (msg : String)
  | resp (statusCode : Nat) (body : BodyResult)
deriving DecidableEq

/-- The candidate key list of `extractLLC` in main.go. -/
def possibleKeys : List String := ["llc", "isp", "carrier", "org", "asn_description"]

/-- Go map lookup `data[key]` on the decoded document. -/
def lookupKey (data : JsonDoc) (key : String) : Option JsonVal :=
  match data with
  | [] => none
  | kv :: rest => if kv.1 = key then some kv.2 else lookupKey rest key

/-- The key-probing loop of `extractLLC`: first candidate key whose value is
a non-empty string. -/
def extractLoop (data : JsonDoc) : List String → Option String
  | [] => none
  | key :: rest =>
    match lookupKey data key with
    | some (JsonVal.str s) => if s ≠ "" then some s else extractLoop data rest
    | _ => extractLoop data rest

/-- `extractLLC` from main.go: probe the candidate keys; on failure return
the diagnostic error naming the document. -/
def extractLLC (data : JsonDoc) : Except String String :=
  match extractLoop data possibleKeys with
  | some s => Except.ok s
  | none => Except.error ("无法从响应中提取 LLC 字段，响应内容: " ++ jsonDocText data)

/-- `queryLLCFromAPI` from main.go, over the attempt outcome supplied by the
network oracle: error strings follow the code's `fmt.Errorf` formats. -/
def queryLLCFromAPI (att : Attempt) : Except String String :=
  match att with
  | Attempt.getErr msg => Except.error ("HTTP 请求失败: " ++ msg)
  | Attempt.resp code body =>
    if code ≠ 200 then Except.error ("API 返回非 200 状态码: " ++ toString code)
    else
      match body with
      | BodyResult.readErr msg => Except.error ("读取响应体失败: " ++ msg)
      | BodyResult.badJson msg => Except.error ("JSON 解析失败: " ++ msg)
      | BodyResult.doc d => extractLLC d

/-- `isRetryable` from main.go: the error text contains "timeout" or "EOF".
`none` models a Go `nil` error. -/
def isRetryable (err : Option String) : Bool :=
  match err with
  | none => false
  | some e => goContains e "timeout" || goContains e "EOF"

/-- `backoffDuration` from main.go, in whole seconds: `1 << attempt`. -/
def backoffDuration (attempt : Nat) : Nat :=
  1 <<< attempt

/-- Observable events of the pipeline: an HTTP attempt (endpoint index,
attempt index), a backoff sleep (seconds), a rate-limiter token
acquisition. -/
inductive Event where
  | request (endpoint : Nat) (attempt : Nat)
  | sleep (d : Nat)
  | acquire
deriving DecidableEq

/-- The inner retry loop of `fetchLLCWithRetry` for one endpoint `ep`.
`q` maps the attempt index to its network outcome; `fuel` is
`maxRetries - attempt`, so the loop guard `attempt < maxRetries` is
`fuel ≠ 0`.  Returns the event trace and this endpoint's final outcome
(`Except.error` carries the last error seen here, the code's `lastErr`). -/
def tryEndpoint (q : Nat → Attempt) (ep : Nat) : Nat → Nat → List Event × Except String String
  | attempt, 0 =>
    match queryLLCFromAPI (q attempt) with
    | Except.ok llc => ([Event.request ep attempt], Except.ok llc)
    | Except.error e => ([Event.request ep attempt], Except.error e)
  | attempt, fuel' + 1 =>
    match queryLLCFromAPI (q attempt) with
    | Except.ok llc => ([Event.request ep attempt], Except.ok llc)
    | Except.error e =>
      if isRetryable (some e) then
        let r := tryEndpoint q ep (attempt + 1) fuel'
        (Event.request ep attempt :: Event.sleep (backoffDuration attempt) :: r.1,
         r.2)
      else ([Event.request ep attempt], Except.error e)

/-- The outer endpoint loop of `fetchLLCWithRetry`: try each endpoint index
in order, carrying `lastErr` (`none` models the initial Go `nil`). -/
def fetchLoop (net : Nat → Nat → Attempt) (maxRetries : Nat) :
    List Nat → Option String → List Event × Except (Option String) String
  | [], lastErr0 => ([], Except.error lastErr0)
  | ep :: rest, lastErr =>
    match tryEndpoint (net ep) ep 0 maxRetries with
    | (evs, Except.ok llc) => (evs, Except.ok llc)
    | (evs, Except.error e) =>
      let r2 := fetchLoop net maxRetries rest (some e)
      (evs ++ r2.1, r2.2)

/-- Go's `%w` rendering of a possibly-nil wrapped error. -/
def wrappedErrText : Option String → String
  | some e => e
  | none => "%!w(<nil>)"

/-- Result of `fetchLLCWithRetry`: its event trace plus the Go return pair
`(llc, err)`. -/
structure FetchOutcome where
  events : List Event
  llc : String
  err : Option String
deriving DecidableEq

/-- `fetchLLCWithRetry` from main.go over `numEndpoints` endpoints
(indices `0, …, numEndpoints - 1` standing for `apiList` in order): on
total failure returns `("", 所有 API 尝试均失败: <lastErr>)`. -/
def fetchLLCWithRetry (net : Nat → Nat → Attempt) (numEndpoints maxRetries : Nat) :
    FetchOutcome :=
  match fetchLoop net maxRetries (List.range numEndpoints) none with
  | (evs, Except.ok llc) => ⟨evs, llc, none⟩
  | (evs, Except.error lastErr) =>
    ⟨evs, "", some ("所有 API 尝试均失败: " ++ wrappedErrText lastErr)⟩

/-- The per-IP loop of `main` (lines 122–134): for each resolved IP, wait on
the rate limiter when one is configured, then run the lookup.  `netFor`
gives each IP its own network oracle. -/
def checkIPs (limiterConfigured : Bool) (netFor : String → Nat → Nat → Attempt)
    (numEndpoints maxRetries : Nat) : List String → List Event × List IPCheckResult
  | [] => ([], [])
  | ip :: rest =>
    let pre : List Event := if limiterConfigured then [Event.acquire] else []
    let f := fetchLLCWithRetry (netFor ip) numEndpoints maxRetries
    let r := checkIPs limiterConfigured netFor numEndpoints maxRetries rest
    (pre ++ f.events ++ r.1, ⟨ip, f.llc, f.err⟩ :: r.2)

/-- The per-IP matching loop of `aggregateDomainResult` (lines 280–301):
returns (per-IP match list, anySuccess, allMatch), threading the two
accumulators exactly as the Go loop does. -/
def aggScan (expected : List String) : List IPCheckResult → Bool → Bool →
    List Bool × Bool × Bool
  | [], anySuccess, allMatch => ([], anySuccess, allMatch)
  | res :: rest, anySuccess, allMatch =>
    match res.Error with
    | some _ =>
      let r := aggScan expected rest anySuccess false
      (false :: r.1, r.2)
    | none =>
      let matched := expected.any fun e => goHasPre res.ActualLLC e
      let r := aggScan expected rest (anySuccess || matched) (allMatch && matched)
      (matched :: r.1, r.2)

/-- `aggregateDomainResult` from main.go. -/
def aggregateDomainResult (domain : String) (expected : List String)
    (ipResults : List IPCheckResult) (strict : Bool) : DomainResult :=
  let scan := aggScan expected ipResults false true
  let anySuccess := scan.2.1
  let allMatch := scan.2.2
  let polluted := if strict then !allMatch else !anySuccess
  let summary :=
    if strict then
      if !allMatch then "严格模式：部分 IP 不符合预期" else "所有 IP 均符合预期"
    else
      if !anySuccess then "宽松模式：无任何 IP 符合预期" else "至少有一个 IP 符合预期"
  ⟨domain, expected, ipResults, polluted, summary⟩

/-- The per-IP verdict the aggregation loop computes, extracted as a
standalone function: the lookup succeeded and the label starts with one of
the expected strings. -/
def resultMatches (expected : List String) (res : IPCheckResult) : Bool :=
  res.Error.isNone && expected.any fun e => goHasPre res.ActualLLC e

/-- Outcome of the DNS resolution step of one domain task. -/
inductive ResolveOutcome where
  | failure (msg : String)
  | ips (addrs : List String)

/-- One domain's task inputs: its configuration, its resolution outcome and
its network oracle. -/
structure DomainTask where
  config : DomainConfig
  resolution : ResolveOutcome
  net : String → Nat → Nat → Attempt

/-- One domain goroutine of `main` (lines 96–138): resolution failure and
the zero-address case short-circuit to a polluted result; otherwise each IP
is looked up and the results aggregated. -/
def processDomain (strict limiterConfigured : Bool) (numEndpoints maxRetries : Nat)
    (t : DomainTask) : DomainResult :=
  match t.resolution with
  | ResolveOutcome.failure msg =>
    ⟨t.config.Name, t.config.ExpectedLlcs, [], true, "DNS 解析失败: " ++ msg⟩
  | ResolveOutcome.ips addrs =>
    if addrs.length = 0 then
      ⟨t.config.Name, t.config.ExpectedLlcs, [], true, "没有找到 IPv4 地址"⟩
    else
      let r := checkIPs limiterConfigured t.net numEndpoints maxRetries addrs
      aggregateDomainResult t.config.Name t.config.ExpectedLlcs r.2 strict

/-- The whole run over every domain task: one `DomainResult` per task
(collection order is abstracted away; the claims proved about it do not
depend on order). -/
def runDomains (strict limiterConfigured : Bool) (numEndpoints maxRetries : Nat)
    (tasks : List DomainTask) : List DomainResult :=
  tasks.map (processDomain strict limiterConfigured numEndpoints maxRetries)

/-- The statistics loop of `buildReport`: total and polluted counts. -/
def reportCounts (results : List DomainResult) : Nat × Nat :=
  (results.length, results.countP fun r => r.IsPolluted)

/-- The pollution rate computed by `buildReport`, with `float64` modelled as
ℚ: `polluted / total * 100` when `total > 0`, else `0`. -/
def reportRate (results : List DomainResult) : ℚ :=
  let c := reportCounts results
  if 0 < c.1 then (c.2 : ℚ) / (c.1 : ℚ) * 100 else 0

/-- `pollutionLevel` from main.go. -/
def pollutionLevel (rate : ℚ) : String :=
  if rate < 20 then "正常"
  else if rate < 40 then "轻度污染"
  else if rate < 60 then "中度污染"
  else "重度污染"

/-- The aggregation loop in closed form: the per-IP verdict list is the map
of `resultMatches`, `anySuccess` accumulates `any`, `allMatch` accumulates
`all`. -/
theorem aggScan_eq (expected : List String) (rs : List IPCheckResult) :
    ∀ (a b : Bool),
      aggScan expected rs a b =
        (rs.map (resultMatches expected),
         a || rs.any (resultMatches expected),
         b && rs.all (resultMatches expected)) := by
  induction rs with
  | nil => intro a b; simp [aggScan]
  | cons res rest ih =>
    intro a b
    cases hE : res.Error with
    | none => simp [aggScan, hE, ih, resultMatches, Bool.or_assoc, Bool.and_assoc]
    | some e => simp [aggScan, hE, ih, resultMatches, Bool.and_assoc]

/-- C1: in lenient mode the domain is polluted iff no IP result matches
(clean iff at least one matches); in strict mode the domain is clean iff
every IP result matches, and polluted iff some IP result fails to match
(a failure result never matching). -/
theorem c1_aggregate_modes (domain : String) (expected : List String)
    (ipResults : List IPCheckResult) :
    ((aggregateDomainResult domain expected ipResults false).IsPolluted = true ↔
        ∀ r ∈ ipResults, resultMatches expected r = false)
    ∧ ((aggregateDomainResult domain expected ipResults false).IsPolluted = false ↔
        ∃ r ∈ ipResults, resultMatches expected r = true)
    ∧ ((aggregateDomainResult domain expected ipResults true).IsPolluted = false ↔
        ∀ r ∈ ipResults, resultMatches expected r = true)
    ∧ ((aggregateDomainResult domain expected ipResults true).IsPolluted = true ↔
        ∃ r ∈ ipResults, resultMatches expected r = false) := by
  refine ⟨?_, ?_, ?_, ?_⟩ <;>
  · simp only [aggregateDomainResult, aggScan_eq]
    simp [List.any_eq_true, List.all_eq_true]

/-- C2: the per-IP verdict computed by the aggregation loop is exactly:
the lookup succeeded and the returned label starts (exact, case-sensitive
character-for-character comparison) with at least one expected string; a
failed lookup never matches; `matches("AMAZON-02", ["AMAZON"]) = true` and
`matches("AMAZONX", ["AMAZON-"]) = false`. -/
theorem c2_per_ip_match_rule (expected : List String) (rs : List IPCheckResult)
    (res : IPCheckResult) (hne : expected ≠ []) :
    ((aggScan expected rs false true).1 = rs.map (resultMatches expected))
    ∧ (resultMatches expected res = true ↔
        res.Error = none ∧ ∃ e ∈ expected, e.data <+: res.ActualLLC.data)
    ∧ (∀ msg, res.Error = some msg → resultMatches expected res = false)
    ∧ resultMatches ["AMAZON"] ⟨"198.51.100.1", "AMAZON-02", none⟩ = true
    ∧ resultMatches ["AMAZON-"] ⟨"198.51.100.1", "AMAZONX", none⟩ = false := by
  refine ⟨by simp [aggScan_eq], ?_, ?_, by decide, by decide⟩
  · simp [resultMatches, goHasPre, List.any_eq_true,
      Option.isNone_iff_eq_none, List.isPrefixOf_iff_prefix]
  · intro msg h
    simp [resultMatches, h]

/-- Witness for C2 at a concrete input. -/
theorem c2_per_ip_match_rule_witness :
    resultMatches ["AMAZON"] ⟨"198.51.100.1", "AMAZON-02", none⟩ = true :=
  (c2_per_ip_match_rule ["AMAZON"] [] ⟨"198.51.100.1", "AMAZON-02", none⟩
    (by decide)).2.2.2.1

/-- C10: on an empty IP-result sequence strict mode reports clean (the
all-match condition is vacuously true) while lenient mode reports polluted
(no IP matched). -/
theorem c10_empty_ip_results (domain : String) (expected : List String) :
    (aggregateDomainResult domain expected [] true).IsPolluted = false
    ∧ (aggregateDomainResult domain expected [] false).IsPolluted = true := by
  exact ⟨rfl, rfl⟩

/-- C7: the run summary's rate is `polluted / total * 100` for a non-empty
run and `0` for a zero-domain run, and the level thresholds are
lower-inclusive, upper-exclusive: `< 20` Normal, `[20, 40)` Mild,
`[40, 60)` Moderate, `≥ 60` Severe; a zero-domain run reports rate `0`,
level Normal. -/
theorem c7_run_summary (results : List DomainResult) (r : ℚ) :
    ((reportCounts results).1 = 0 → reportRate results = 0)
    ∧ (0 < (reportCounts results).1 →
        reportRate results =
          ((reportCounts results).2 : ℚ) / ((reportCounts results).1 : ℚ) * 100)
    ∧ (r < 20 → pollutionLevel r = "正常")
    ∧ (20 ≤ r → r < 40 → pollutionLevel r = "轻度污染")
    ∧ (40 ≤ r → r < 60 → pollutionLevel r = "中度污染")
    ∧ (60 ≤ r → pollutionLevel r = "重度污染")
    ∧ reportRate [] = 0 ∧ pollutionLevel (reportRate []) = "正常" := by
  refine ⟨?_, ?_, ?_, ?_, ?_, ?_, ?_, ?_⟩
  · intro h; simp [reportRate, h]
  · intro h; simp [reportRate, h]
  · intro h; simp [pollutionLevel, h]
  · intro h1 h2
    rw [pollutionLevel, if_neg (by linarith), if_pos h2]
  · intro h1 h2
    rw [pollutionLevel, if_neg (by linarith), if_neg (by linarith), if_pos h2]
  · intro h
    rw [pollutionLevel, if_neg (by linarith), if_neg (by linarith),
      if_neg (by linarith)]
  · simp [reportRate, reportCounts]
  · simp [reportRate, reportCounts, pollutionLevel]

/-- Witness for C7 at concrete inputs. -/
theorem c7_run_summary_witness : pollutionLevel 50 = "中度污染" :=
  (c7_run_summary [] 50).2.2.2.2.1 (by norm_num) (by norm_num)

/-- C8: a domain whose resolution fails, or yields zero IPv4 addresses, is
reported polluted with an explanatory summary; every task yields exactly one
result computed from that task's own data alone, so no failure aborts the
run or affects another domain. -/
theorem c8_resolution_failure (strict limiterConfigured : Bool)
    (numEndpoints maxRetries : Nat) (tasks : List DomainTask)
    (t : DomainTask) (msg : String) :
    ((runDomains strict limiterConfigured numEndpoints maxRetries tasks).length
        = tasks.length)
    ∧ (∀ i (h : i < tasks.length),
        (runDomains strict limiterConfigured numEndpoints maxRetries tasks)[i]? =
          some (processDomain strict limiterConfigured numEndpoints maxRetries
            (tasks.get ⟨i, h⟩)))
    ∧ (t.resolution = ResolveOutcome.failure msg →
        (processDomain strict limiterConfigured numEndpoints maxRetries t).IsPolluted
            = true
        ∧ (processDomain strict limiterConfigured numEndpoints maxRetries t).Summary
            = "DNS 解析失败: " ++ msg)
    ∧ (t.resolution = ResolveOutcome.ips [] →
        (processDomain strict limiterConfigured numEndpoints maxRetries t).IsPolluted
            = true
        ∧ (processDomain strict limiterConfigured numEndpoints maxRetries t).Summary
            = "没有找到 IPv4 地址") := by
  refine ⟨by simp [runDomains], ?_, ?_, ?_⟩
  · intro i h
    simp [runDomains, List.getElem?_map, List.getElem?_eq_getElem, h,
      List.get_eq_getElem]
  · intro h; rw [processDomain, h]; exact ⟨rfl, rfl⟩
  · intro h; rw [processDomain, h]; exact ⟨rfl, rfl⟩

/-- Witness for C8 at a concrete failing task. -/
theorem c8_resolution_failure_witness :
    (processDomain false false 1 0
      ⟨⟨"example.com", ["AMAZON"]⟩, ResolveOutcome.failure "i/o timeout",
        fun _ _ _ => Attempt.getErr "unreachable"⟩).IsPolluted = true :=
  ((c8_resolution_failure false false 1 0 []
    ⟨⟨"example.com", ["AMAZON"]⟩, ResolveOutcome.failure "i/o timeout",
      fun _ _ _ => Attempt.getErr "unreachable"⟩ "i/o timeout").2.2.1 rfl).1

/-- A successful key probe never returns the empty string. -/
theorem extractLoop_ne_empty (data : JsonDoc) :
    ∀ (keys : List String) (s : String), extractLoop data keys = some s → s ≠ "" := by
  intro keys
  induction keys with
  | nil => intro s h; simp [extractLoop] at h
  | cons k rest ih =>
    intro s h
    rw [extractLoop] at h
    split at h
    · split at h
      · rename_i s' hkey hs
        cases h
        exact hs
      · exact ih s h
    · exact ih s h

/-- `queryLLCFromAPI` never succeeds with an empty label. -/
theorem queryLLCFromAPI_ok_ne (att : Attempt) (s : String)
    (h : queryLLCFromAPI att = Except.ok s) : s ≠ "" := by
  rw [queryLLCFromAPI.eq_def] at h
  split at h
  · exact Except.noConfusion h
  · split at h
    · exact Except.noConfusion h
    · split at h
      · exact Except.noConfusion h
      · exact Except.noConfusion h
      · rename_i d
        rw [extractLLC] at h
        split at h
        · rename_i s' hk
          cases h
          exact extractLoop_ne_empty d possibleKeys s hk
        · exact Except.noConfusion h

/-- The per-endpoint retry loop never succeeds with an empty label. -/
theorem tryEndpoint_ok_ne (q : Nat → Attempt) (ep : Nat) :
    ∀ (fuel attempt : Nat) (s : String),
      (tryEndpoint q ep attempt fuel).2 = Except.ok s → s ≠ "" := by
  intro fuel
  induction fuel with
  | zero =>
    intro attempt s h
    rw [tryEndpoint] at h
    split at h
    · rename_i llc hq
      cases h
      exact queryLLCFromAPI_ok_ne _ _ hq
    · exact Except.noConfusion h
  | succ f ih =>
    intro attempt s h
    rw [tryEndpoint] at h
    split at h
    · rename_i llc hq
      cases h
      exact queryLLCFromAPI_ok_ne _ _ hq
    · rename_i e hq
      split at h
      · exact ih (attempt + 1) s h
      · exact Except.noConfusion h

/-- The endpoint-fallback loop never succeeds with an empty label. -/
theorem fetchLoop_ok_ne (net : Nat → Nat → Attempt) (maxRetries : Nat) :
    ∀ (eps : List Nat) (le : Option String) (s : String),
      (fetchLoop net maxRetries eps le).2 = Except.ok s → s ≠ "" := by
  intro eps
  induction eps with
  | nil => intro le s h; exact Except.noConfusion h
  | cons ep rest ih =>
    intro le s h
    rw [fetchLoop] at h
    split at h
    · rename_i evs llc ht
      cases h
      exact tryEndpoint_ok_ne (net ep) ep maxRetries 0 s (by rw [ht])
    · rename_i evs e ht
      exact ih (some e) s h

/-- `fetchLLCWithRetry` returns a non-empty label exactly on success, and an
empty label exactly on failure. -/
theorem fetchLLCWithRetry_exclusive (net : Nat → Nat → Attempt)
    (numEndpoints maxRetries : Nat) :
    ((fetchLLCWithRetry net numEndpoints maxRetries).err = none →
        (fetchLLCWithRetry net numEndpoints maxRetries).llc ≠ "")
    ∧ (∀ e, (fetchLLCWithRetry net numEndpoints maxRetries).err = some e →
        (fetchLLCWithRetry net numEndpoints maxRetries).llc = "") := by
  rw [fetchLLCWithRetry]
  cases hf : fetchLoop net maxRetries (List.range numEndpoints) none with
  | mk evs out =>
    cases out with
    | ok llc =>
      refine ⟨fun _ => ?_, fun e he => (nomatch he)⟩
      exact fetchLoop_ok_ne net maxRetries (List.range numEndpoints) none llc
        (by rw [hf])
    | error le =>
      exact ⟨fun hne => (nomatch hne), fun e he => rfl⟩

/-- C9: every `IPCheckResult` the per-IP loop produces has exactly one of
label / failure set: on success the label is non-empty and the failure
absent; on failure the failure is present and the label empty. -/
theorem c9_label_failure_exclusive (limiterConfigured : Bool)
    (netFor : String → Nat → Nat → Attempt) (numEndpoints maxRetries : Nat)
    (ips : List String) (res : IPCheckResult)
    (hmem : res ∈ (checkIPs limiterConfigured netFor numEndpoints maxRetries ips).2) :
    (res.Error = none ∧ res.ActualLLC ≠ "")
    ∨ ((∃ e, res.Error = some e) ∧ res.ActualLLC = "") := by
  induction ips with
  | nil => cases hmem
  | cons ip rest ih =>
    simp only [checkIPs] at hmem
    rcases List.mem_cons.mp hmem with hhd | htl
    · subst hhd
      have hx := fetchLLCWithRetry_exclusive (netFor ip) numEndpoints maxRetries
      cases he : (fetchLLCWithRetry (netFor ip) numEndpoints maxRetries).err with
      | none => exact Or.inl ⟨rfl, hx.1 he⟩
      | some e => exact Or.inr ⟨⟨e, rfl⟩, hx.2 e he⟩
    · exact ih htl

/-- Witness for C9 at a concrete successful lookup. -/
theorem c9_label_failure_exclusive_witness :
    (⟨"198.51.100.1", "AMAZON-02", none⟩ : IPCheckResult) ∈
      (checkIPs false
        (fun _ _ _ => Attempt.resp 200 (BodyResult.doc [("isp", JsonVal.str "AMAZON-02")]))
        1 0 ["198.51.100.1"]).2
    ∧ (((⟨"198.51.100.1", "AMAZON-02", none⟩ : IPCheckResult).Error = none
          ∧ (⟨"198.51.100.1", "AMAZON-02", none⟩ : IPCheckResult).ActualLLC ≠ "")
        ∨ ((∃ e, (⟨"198.51.100.1", "AMAZON-02", none⟩ : IPCheckResult).Error = some e)
          ∧ (⟨"198.51.100.1", "AMAZON-02", none⟩ : IPCheckResult).ActualLLC = "")) :=
  ⟨by decide,
   c9_label_failure_exclusive false
     (fun _ _ _ => Attempt.resp 200 (BodyResult.doc [("isp", JsonVal.str "AMAZON-02")]))
     1 0 ["198.51.100.1"] ⟨"198.51.100.1", "AMAZON-02", none⟩ (by decide)⟩

/-- The canonical shape of one endpoint's event trace: requests at attempt
indices `a, a+1, …, a+k` with the backoff sleep for each attempt between
consecutive requests. -/
def chain (ep a : Nat) : Nat → List Event
  | 0 => [Event.request ep a]
  | k + 1 =>
    Event.request ep a :: Event.sleep (backoffDuration a) :: chain ep (a + 1) k

/-- A chain always begins with the request of its first attempt. -/
theorem chain_head (ep a k : Nat) : ∃ t, chain ep a k = Event.request ep a :: t := by
  cases k with
  | zero => exact ⟨[], rfl⟩
  | succ k => exact ⟨_, rfl⟩

/-- Every per-endpoint trace is a chain of at most `fuel + 1` attempts. -/
theorem tryEndpoint_trace (q : Nat → Attempt) (ep : Nat) :
    ∀ (fuel attempt : Nat),
      ∃ k ≤ fuel, (tryEndpoint q ep attempt fuel).1 = chain ep attempt k := by
  intro fuel
  induction fuel with
  | zero =>
    intro attempt
    refine ⟨0, Nat.le_refl 0, ?_⟩
    rw [tryEndpoint]
    split
    · rfl
    · rfl
  | succ f ih =>
    intro attempt
    rw [tryEndpoint]
    split
    · exact ⟨0, Nat.zero_le _, rfl⟩
    · split
      · obtain ⟨k, hk, he⟩ := ih (attempt + 1)
        refine ⟨k + 1, Nat.succ_le_succ hk, ?_⟩
        show Event.request ep attempt :: Event.sleep (backoffDuration attempt) ::
            (tryEndpoint q ep (attempt + 1) f).1 = chain ep attempt (k + 1)
        rw [he, chain]
      · exact ⟨0, Nat.zero_le _, rfl⟩

/-- Is this event a request to endpoint `e`? -/
def isReqTo (e : Nat) : Event → Bool
  | Event.request ep _ => decide (ep = e)
  | _ => false

/-- Number of HTTP attempts against endpoint `e` recorded in a trace. -/
def requestsTo (e : Nat) (t : List Event) : Nat := t.countP (isReqTo e)

theorem requestsTo_append (e : Nat) (a b : List Event) :
    requestsTo e (a ++ b) = requestsTo e a + requestsTo e b :=
  List.countP_append _ a b

theorem requestsTo_chain (e ep : Nat) :
    ∀ (k a : Nat), requestsTo e (chain ep a k) = if ep = e then k + 1 else 0 := by
  intro k
  induction k with
  | zero =>
    intro a
    by_cases h : ep = e <;>
      simp [requestsTo, chain, isReqTo, List.countP_cons, h]
  | succ k ih =>
    intro a
    show List.countP (isReqTo e)
        (Event.request ep a :: Event.sleep (backoffDuration a) :: chain ep (a + 1) k)
        = if ep = e then (k + 1) + 1 else 0
    rw [List.countP_cons, List.countP_cons]
    have hk := ih (a + 1)
    rw [requestsTo] at hk
    rw [hk]
    by_cases h : ep = e <;> simp [isReqTo, h]

/-- The fallback loop never issues a request to an endpoint outside its
endpoint list. -/
theorem fetchLoop_requests_outside (net : Nat → Nat → Attempt) (maxRetries : Nat) :
    ∀ (eps : List Nat) (le : Option String) (e : Nat), e ∉ eps →
      requestsTo e (fetchLoop net maxRetries eps le).1 = 0 := by
  intro eps
  induction eps with
  | nil => intro le e _; rfl
  | cons ep rest ih =>
    intro le e he
    have hep : ep ≠ e := fun hcon => he (hcon ▸ List.mem_cons_self ep rest)
    have hrest : e ∉ rest := fun hcon => he (List.mem_cons_of_mem ep hcon)
    obtain ⟨k, _, hc⟩ := tryEndpoint_trace (net ep) ep maxRetries 0
    cases hres : tryEndpoint (net ep) ep 0 maxRetries with
    | mk evs out =>
      have hevs : evs = chain ep 0 k := by rw [← hc, hres]
      cases out with
      | ok llc =>
        simp only [fetchLoop, hres]
        rw [hevs, requestsTo_chain, if_neg hep]
      | error e' =>
        simp only [fetchLoop, hres]
        rw [requestsTo_append, hevs, requestsTo_chain, if_neg hep,
          ih (some e') e hrest]

/-- C5 core: each endpoint receives at most `maxRetries + 1` requests in any
lookup over a duplicate-free endpoint list. -/
theorem fetchLoop_requests_bound (net : Nat → Nat → Attempt) (maxRetries : Nat) :
    ∀ (eps : List Nat), eps.Nodup → ∀ (le : Option String) (e : Nat),
      requestsTo e (fetchLoop net maxRetries eps le).1 ≤ maxRetries + 1 := by
  intro eps
  induction eps with
  | nil => intro _ le e; exact Nat.zero_le _
  | cons ep rest ih =>
    intro hnd le e
    have hep : ep ∉ rest := (List.nodup_cons.mp hnd).1
    have hrest : rest.Nodup := (List.nodup_cons.mp hnd).2
    obtain ⟨k, hk, hc⟩ := tryEndpoint_trace (net ep) ep maxRetries 0
    cases hres : tryEndpoint (net ep) ep 0 maxRetries with
    | mk evs out =>
      have hevs : evs = chain ep 0 k := by rw [← hc, hres]
      cases out with
      | ok llc =>
        simp only [fetchLoop, hres]
        rw [hevs, requestsTo_chain]
        by_cases h : ep = e
        · rw [if_pos h]; omega
        · rw [if_neg h]; omega
      | error e' =>
        simp only [fetchLoop, hres]
        rw [requestsTo_append, hevs, requestsTo_chain]
        by_cases h : ep = e
        · rw [if_pos h,
            fetchLoop_requests_outside net maxRetries rest (some e') e (h ▸ hep)]
          omega
        · rw [if_neg h]
          have := ih hrest (some e') e
          omega

/-- The final events of `fetchLLCWithRetry` are exactly the fallback loop's
trace. -/
theorem fetchLLCWithRetry_events (net : Nat → Nat → Attempt)
    (numEndpoints maxRetries : Nat) :
    (fetchLLCWithRetry net numEndpoints maxRetries).events =
      (fetchLoop net maxRetries (List.range numEndpoints) none).1 := by
  rw [fetchLLCWithRetry]
  cases hf : fetchLoop net maxRetries (List.range numEndpoints) none with
  | mk evs out =>
    cases out with
    | ok llc => rfl
    | error le => rfl

/-- Sleeps are well-placed in a trace: every sleep sits between two
consecutive attempts of the same endpoint and lasts exactly the backoff of
the attempt it follows. -/
def sleepsWellFormed : List Event → Bool
  | [] => true
  | Event.sleep _ :: _ => false
  | Event.request ep a :: Event.sleep d :: Event.request ep2 a2 :: rest =>
    decide (d = backoffDuration a) && decide (ep2 = ep) && decide (a2 = a + 1) &&
      sleepsWellFormed (Event.request ep2 a2 :: rest)
  | Event.request _ _ :: Event.sleep _ :: _ => false
  | _ :: rest => sleepsWellFormed rest

/-- Does a trace avoid starting with a sleep? -/
def notSleepHead : List Event → Bool
  | Event.sleep _ :: _ => false
  | _ => true

theorem sleepsWellFormed_chain_append (ep : Nat) :
    ∀ (k a : Nat) (rest : List Event), notSleepHead rest = true →
      sleepsWellFormed (chain ep a k ++ rest) = sleepsWellFormed rest := by
  intro k
  induction k with
  | zero =>
    intro a rest hr
    cases rest with
    | nil => rfl
    | cons ev rest2 =>
      cases ev with
      | request ep2 a2 => rfl
      | sleep d => exact absurd hr (by simp [notSleepHead])
      | acquire => rfl
  | succ k ih =>
    intro a rest hr
    obtain ⟨t, ht⟩ := chain_head ep (a + 1) k
    have hexp : chain ep a (k + 1) ++ rest
        = Event.request ep a :: Event.sleep (backoffDuration a) ::
          Event.request ep (a + 1) :: (t ++ rest) := by
      rw [chain, ht]
      simp
    rw [hexp]
    show (decide (backoffDuration a = backoffDuration a) && decide (ep = ep) &&
        decide (a + 1 = a + 1) &&
        sleepsWellFormed (Event.request ep (a + 1) :: (t ++ rest)))
      = sleepsWellFormed rest
    have hback : Event.request ep (a + 1) :: (t ++ rest) = chain ep (a + 1) k ++ rest := by
      rw [ht]
      simp
    rw [hback, ih (a + 1) rest hr]
    simp

/-- The fallback loop's trace never starts with a sleep. -/
theorem fetchLoop_notSleepHead (net : Nat → Nat → Attempt) (maxRetries : Nat) :
    ∀ (eps : List Nat) (le : Option String),
      notSleepHead (fetchLoop net maxRetries eps le).1 = true := by
  intro eps le
  cases eps with
  | nil => rfl
  | cons ep rest =>
    obtain ⟨k, _, hc⟩ := tryEndpoint_trace (net ep) ep maxRetries 0
    obtain ⟨t, hct⟩ := chain_head ep 0 k
    cases hres : tryEndpoint (net ep) ep 0 maxRetries with
    | mk evs out =>
      have hevs : evs = Event.request ep 0 :: t := by rw [← hct, ← hc, hres]
      cases out with
      | ok llc =>
        simp only [fetchLoop, hres]
        rw [hevs]
        rfl
      | error e' =>
        simp only [fetchLoop, hres]
        rw [hevs]
        rfl

/-- Every fallback-loop trace has well-placed sleeps. -/
theorem fetchLoop_sleeps (net : Nat → Nat → Attempt) (maxRetries : Nat) :
    ∀ (eps : List Nat) (le : Option String),
      sleepsWellFormed (fetchLoop net maxRetries eps le).1 = true := by
  intro eps
  induction eps with
  | nil => intro le; rfl
  | cons ep rest ih =>
    intro le
    obtain ⟨k, _, hc⟩ := tryEndpoint_trace (net ep) ep maxRetries 0
    cases hres : tryEndpoint (net ep) ep 0 maxRetries with
    | mk evs out =>
      have hevs : evs = chain ep 0 k := by rw [← hc, hres]
      cases out with
      | ok llc =>
        simp only [fetchLoop, hres]
        rw [hevs, ← List.append_nil (chain ep 0 k),
          sleepsWellFormed_chain_append ep k 0 [] rfl]
        rfl
      | error e' =>
        simp only [fetchLoop, hres]
        rw [hevs,
          sleepsWellFormed_chain_append ep k 0 _
            (fetchLoop_notSleepHead net maxRetries rest (some e'))]
        exact ih (some e')

/-- C5: each endpoint is attempted at most `maxRetries + 1` times; every
sleep lies between consecutive attempts of one endpoint and lasts the
backoff `2 ^ attempt` of the attempt it follows; concretely, with
`maxRetries = 2` and a lookup failing retryably twice then succeeding, the
lookup returns the success after sleeping `2^0` then `2^1` time units. -/
theorem c5_retry_budget_backoff (net : Nat → Nat → Attempt)
    (numEndpoints maxRetries e : Nat) :
    requestsTo e (fetchLLCWithRetry net numEndpoints maxRetries).events ≤ maxRetries + 1
    ∧ sleepsWellFormed (fetchLLCWithRetry net numEndpoints maxRetries).events = true
    ∧ (∀ a, backoffDuration a = 2 ^ a)
    ∧ fetchLLCWithRetry
        (fun _ a => if a < 2 then Attempt.getErr "request timeout"
          else Attempt.resp 200 (BodyResult.doc [("isp", JsonVal.str "AMAZON-02")]))
        1 2 =
      ⟨[Event.request 0 0, Event.sleep 1, Event.request 0 1, Event.sleep 2,
        Event.request 0 2], "AMAZON-02", none⟩ := by
  refine ⟨?_, ?_, ?_, by decide⟩
  · rw [fetchLLCWithRetry_events]
    exact fetchLoop_requests_bound net maxRetries (List.range numEndpoints)
      (List.nodup_range numEndpoints) none e
  · rw [fetchLLCWithRetry_events]
    exact fetchLoop_sleeps net maxRetries (List.range numEndpoints) none
  · intro a
    rw [backoffDuration, Nat.shiftLeft_eq, one_mul]

/-- On failure, an endpoint's outcome is the error of its chronologically
last attempt, which is also the last event of its trace. -/
theorem tryEndpoint_error_last (q : Nat → Attempt) (ep : Nat) :
    ∀ (fuel attempt : Nat) (e : String),
      (tryEndpoint q ep attempt fuel).2 = Except.error e →
      ∃ a, ((tryEndpoint q ep attempt fuel).1).getLast? = some (Event.request ep a)
        ∧ queryLLCFromAPI (q a) = Except.error e := by
  intro fuel
  induction fuel with
  | zero =>
    intro attempt e h
    cases hq : queryLLCFromAPI (q attempt) with
    | ok llc =>
      simp only [tryEndpoint, hq] at h
      exact Except.noConfusion h
    | error e' =>
      simp only [tryEndpoint, hq] at h ⊢
      cases h
      exact ⟨attempt, rfl, hq⟩
  | succ f ih =>
    intro attempt e h
    cases hq : queryLLCFromAPI (q attempt) with
    | ok llc =>
      simp only [tryEndpoint, hq] at h
      exact Except.noConfusion h
    | error e' =>
      by_cases hr : isRetryable (some e') = true
      · simp only [tryEndpoint, hq] at h ⊢
        rw [if_pos hr] at h ⊢
        obtain ⟨a, hl, hqa⟩ := ih (attempt + 1) e h
        refine ⟨a, ?_, hqa⟩
        show (Event.request ep attempt :: Event.sleep (backoffDuration attempt) ::
            (tryEndpoint q ep (attempt + 1) f).1).getLast?
          = some (Event.request ep a)
        have hne : (tryEndpoint q ep (attempt + 1) f).1 ≠ [] := by
          obtain ⟨k, _, hc⟩ := tryEndpoint_trace q ep f (attempt + 1)
          obtain ⟨t, hct⟩ := chain_head ep (attempt + 1) k
          rw [hc, hct]
          exact List.cons_ne_nil _ _
        obtain ⟨b, t2, hbt⟩ := List.exists_cons_of_ne_nil hne
        rw [hbt, List.getLast?_cons_cons, List.getLast?_cons_cons, ← hbt]
        exact hl
      · simp only [tryEndpoint, hq] at h ⊢
        rw [if_neg hr] at h ⊢
        cases h
        exact ⟨attempt, rfl, hq⟩

/-- A fallback-loop trace over a non-empty endpoint list is non-empty. -/
theorem fetchLoop_trace_ne (net : Nat → Nat → Attempt) (maxRetries : Nat)
    (ep : Nat) (rest : List Nat) (le : Option String) :
    (fetchLoop net maxRetries (ep :: rest) le).1 ≠ [] := by
  obtain ⟨k, _, hc⟩ := tryEndpoint_trace (net ep) ep maxRetries 0
  obtain ⟨t, hct⟩ := chain_head ep 0 k
  cases hres : tryEndpoint (net ep) ep 0 maxRetries with
  | mk evs out =>
    have hevs : evs = Event.request ep 0 :: t := by rw [← hct, ← hc, hres]
    cases out with
    | ok llc =>
      simp only [fetchLoop, hres]
      rw [hevs]
      exact List.cons_ne_nil _ _
    | error e' =>
      simp only [fetchLoop, hres]
      rw [hevs]
      exact List.cons_ne_nil _ _

/-- On total failure the fallback loop returns (as the wrapped `lastErr`)
the error of the chronologically last attempt, which is the last event of
the whole trace. -/
theorem fetchLoop_error_last (net : Nat → Nat → Attempt) (maxRetries : Nat) :
    ∀ (eps : List Nat) (le : Option String) (oe : Option String),
      eps ≠ [] →
      (fetchLoop net maxRetries eps le).2 = Except.error oe →
      ∃ ep a e,
        ((fetchLoop net maxRetries eps le).1).getLast? = some (Event.request ep a)
        ∧ queryLLCFromAPI (net ep a) = Except.error e ∧ oe = some e := by
  intro eps
  induction eps with
  | nil => intro le oe hne _; exact absurd rfl hne
  | cons ep rest ih =>
    intro le oe _ h
    cases hres : tryEndpoint (net ep) ep 0 maxRetries with
    | mk evs out =>
      cases out with
      | ok llc =>
        rw [fetchLoop] at h
        simp only [hres] at h
        exact Except.noConfusion h
      | error e' =>
        rw [fetchLoop] at h ⊢
        simp only [hres] at h ⊢
        cases rest with
        | nil =>
          rw [fetchLoop] at h ⊢
          cases h
          obtain ⟨a, hl, hqa⟩ :=
            tryEndpoint_error_last (net ep) ep maxRetries 0 e' (by rw [hres])
          refine ⟨ep, a, e', ?_, hqa, rfl⟩
          have hevs : (tryEndpoint (net ep) ep 0 maxRetries).1 = evs := by rw [hres]
          show (evs ++ ([] : List Event)).getLast? = some (Event.request ep a)
          rw [List.append_nil, ← hevs]
          exact hl
        | cons ep2 rest2 =>
          obtain ⟨ep', a, e'', hl, hqa, hoe⟩ :=
            ih (some e') oe (List.cons_ne_nil ep2 rest2) h
          refine ⟨ep', a, e'', ?_, hqa, hoe⟩
          rw [List.getLast?_append_of_ne_nil _
            (fetchLoop_trace_ne net maxRetries ep2 rest2 (some e'))]
          exact hl

/-- Durations of the sleep events of a trace, in order. -/
def sleepDurations (t : List Event) : List Nat :=
  t.filterMap fun ev =>
    match ev with
    | Event.sleep d => some d
    | _ => none

/-- Are the entries of a list strictly increasing? -/
def strictlyIncreasing : List Nat → Bool
  | a :: b :: rest => decide (a < b) && strictlyIncreasing (b :: rest)
  | _ => true

/-- Counterexample to C6 as stated: if the backoff exponent never restarted
from zero at an endpoint change, sleep durations within one lookup would be
strictly increasing (the exponent only ever grows); the code's trace for
two endpoints failing retryably with `maxRetries = 1` sleeps 1s, 1s. -/
theorem c6_counterexample :
    strictlyIncreasing (sleepDurations
      (fetchLLCWithRetry (fun _ _ => Attempt.getErr "i/o timeout") 2 1).events)
      = false := by
  decide

/-- C6 (amended): on a non-retryable failure or an exhausted retry budget
the lookup advances to the next endpoint with the attempt counter — hence
the backoff exponent — restarting from zero, and when every endpoint is
exhausted it returns the all-endpoints-exhausted error wrapping the most
recent underlying error (the error of the chronologically last attempt). -/
theorem c6_endpoint_fallback (net : Nat → Nat → Attempt)
    (numEndpoints maxRetries : Nat) (s : String) (hn : 0 < numEndpoints)
    (hs : (fetchLLCWithRetry net numEndpoints maxRetries).err = some s) :
    (∃ ep a e,
      ((fetchLLCWithRetry net numEndpoints maxRetries).events).getLast?
          = some (Event.request ep a)
      ∧ queryLLCFromAPI (net ep a) = Except.error e
      ∧ s = "所有 API 尝试均失败: " ++ e)
    ∧ (fetchLLCWithRetry (fun _ _ => Attempt.getErr "i/o timeout") 2 1).events
        = [Event.request 0 0, Event.sleep 1, Event.request 0 1,
           Event.request 1 0, Event.sleep 1, Event.request 1 1] := by
  refine ⟨?_, by decide⟩
  have hray : List.range numEndpoints ≠ [] := by
    intro hcon
    rw [List.range_eq_nil] at hcon
    omega
  cases hf : fetchLoop net maxRetries (List.range numEndpoints) none with
  | mk evs out =>
    cases out with
    | ok llc =>
      rw [fetchLLCWithRetry] at hs
      rw [hf] at hs
      exact Option.noConfusion hs
    | error le =>
      rw [fetchLLCWithRetry] at hs
      rw [hf] at hs
      cases hs
      obtain ⟨ep, a, e, hl, hqa, hoe⟩ :=
        fetchLoop_error_last net maxRetries (List.range numEndpoints) none le hray
          (by rw [hf])
      refine ⟨ep, a, e, ?_, hqa, ?_⟩
      · rw [fetchLLCWithRetry_events]
        exact hl
      · rw [hoe]
        rfl

/-- Witness for C6 at a concrete totally-failing lookup. -/
theorem c6_endpoint_fallback_witness :
    ∃ ep a e,
      ((fetchLLCWithRetry (fun _ _ => Attempt.getErr "i/o timeout") 2 1).events).getLast?
          = some (Event.request ep a)
      ∧ queryLLCFromAPI (Attempt.getErr "i/o timeout") = Except.error e
      ∧ "所有 API 尝试均失败: HTTP 请求失败: i/o timeout" = "所有 API 尝试均失败: " ++ e :=
  (c6_endpoint_fallback (fun _ _ => Attempt.getErr "i/o timeout") 2 1
    "所有 API 尝试均失败: HTTP 请求失败: i/o timeout" (by decide) (by decide)).1

/-- Is every request event immediately preceded by a token acquisition? -/
def tokenGatedFrom (prev : Option Event) : List Event → Bool
  | [] => true
  | ev :: rest =>
    (match ev with
     | Event.request _ _ => decide (prev = some Event.acquire)
     | _ => true) && tokenGatedFrom (some ev) rest

/-- C3's stated property over a trace: every HTTP attempt has a token
acquisition immediately before it. -/
def immediatelyTokenGated (t : List Event) : Bool := tokenGatedFrom none t

/-- Counterexample to C3 as stated: with a limiter configured, one IP, one
endpoint, `maxRetries = 1` and a first attempt failing retryably, the retry
is issued with no token acquisition immediately before it (the token is
acquired once per IP, before `fetchLLCWithRetry`, not before each attempt). -/
theorem c3_counterexample :
    immediatelyTokenGated
      (checkIPs true
        (fun _ _ a => if a = 0 then Attempt.getErr "i/o timeout"
          else Attempt.resp 200 (BodyResult.doc [("isp", JsonVal.str "AMAZON-02")]))
        1 1 ["198.51.100.1"]).1 = false := by
  decide

/-- Number of token acquisitions in a trace. -/
def countAcquire (t : List Event) : Nat :=
  t.countP fun ev => decide (ev = Event.acquire)

theorem countAcquire_append (a b : List Event) :
    countAcquire (a ++ b) = countAcquire a + countAcquire b :=
  List.countP_append _ a b

theorem countAcquire_chain (ep : Nat) : ∀ k a, countAcquire (chain ep a k) = 0 := by
  intro k
  induction k with
  | zero => intro a; rfl
  | succ k ih =>
    intro a
    show List.countP (fun ev => decide (ev = Event.acquire))
        (Event.request ep a :: Event.sleep (backoffDuration a) :: chain ep (a + 1) k)
      = 0
    rw [List.countP_cons, List.countP_cons]
    have hk := ih (a + 1)
    rw [countAcquire] at hk
    rw [hk]
    rfl

/-- The lookup loops never touch the rate limiter. -/
theorem countAcquire_fetchLoop (net : Nat → Nat → Attempt) (maxRetries : Nat) :
    ∀ (eps : List Nat) (le : Option String),
      countAcquire (fetchLoop net maxRetries eps le).1 = 0 := by
  intro eps
  induction eps with
  | nil => intro le; rfl
  | cons ep rest ih =>
    intro le
    obtain ⟨k, _, hc⟩ := tryEndpoint_trace (net ep) ep maxRetries 0
    cases hres : tryEndpoint (net ep) ep 0 maxRetries with
    | mk evs out =>
      have hevs : evs = chain ep 0 k := by rw [← hc, hres]
      cases out with
      | ok llc =>
        rw [fetchLoop]
        simp only [hres]
        rw [hevs, countAcquire_chain]
      | error e' =>
        rw [fetchLoop]
        simp only [hres]
        rw [countAcquire_append, hevs, countAcquire_chain, ih (some e')]

theorem countAcquire_fetch (net : Nat → Nat → Attempt) (numEndpoints maxRetries : Nat) :
    countAcquire (fetchLLCWithRetry net numEndpoints maxRetries).events = 0 := by
  rw [fetchLLCWithRetry_events]
  exact countAcquire_fetchLoop net maxRetries (List.range numEndpoints) none

/-- Every request in a trace is preceded (not necessarily immediately) by
some earlier acquisition; `seen` records whether one has occurred yet. -/
def coveredByAcquire (seen : Bool) : List Event → Bool
  | [] => true
  | Event.acquire :: rest => coveredByAcquire true rest
  | Event.request _ _ :: rest => seen && coveredByAcquire seen rest
  | _ :: rest => coveredByAcquire seen rest

theorem coveredByAcquire_true : ∀ t, coveredByAcquire true t = true := by
  intro t
  induction t with
  | nil => rfl
  | cons ev rest ih =>
    cases ev with
    | request ep a =>
      show (true && coveredByAcquire true rest) = true
      rw [ih]
      rfl
    | sleep d => exact ih
    | acquire => exact ih

/-- C3 (amended): with a limiter configured the per-IP loop acquires exactly
one token per IP, before that IP's first attempt; every HTTP attempt is
preceded by some earlier acquisition, but retries and fallback attempts of
the same IP's lookup issue no further acquisitions. -/
theorem c3_token_per_ip (netFor : String → Nat → Nat → Attempt)
    (numEndpoints maxRetries : Nat) (ips : List String) :
    countAcquire (checkIPs true netFor numEndpoints maxRetries ips).1 = ips.length
    ∧ coveredByAcquire false (checkIPs true netFor numEndpoints maxRetries ips).1
        = true := by
  induction ips with
  | nil => exact ⟨rfl, rfl⟩
  | cons ip rest ih =>
    have hsh : (checkIPs true netFor numEndpoints maxRetries (ip :: rest)).1
        = Event.acquire ::
          ((fetchLLCWithRetry (netFor ip) numEndpoints maxRetries).events
            ++ (checkIPs true netFor numEndpoints maxRetries rest).1) := by
      simp [checkIPs]
    constructor
    · rw [hsh, countAcquire, List.countP_cons]
      have h1 : countAcquire
          ((fetchLLCWithRetry (netFor ip) numEndpoints maxRetries).events
            ++ (checkIPs true netFor numEndpoints maxRetries rest).1)
          = 0 + rest.length := by
        rw [countAcquire_append, countAcquire_fetch, ih.1]
      rw [countAcquire] at h1
      rw [h1]
      simp
    · rw [hsh]
      exact coveredByAcquire_true _

set_option maxRecDepth 8192 in
/-- Counterexample to C4 as stated: a connection reset — a non-timeout
transport error — produces an error message containing neither "timeout"
nor "EOF", so `isRetryable` classifies it NOT retryable, and the lookup
does not retry it. -/
theorem c4_counterexample :
    queryLLCFromAPI (Attempt.getErr "read tcp: connection reset by peer")
      = Except.error "HTTP 请求失败: read tcp: connection reset by peer"
    ∧ isRetryable (some "HTTP 请求失败: read tcp: connection reset by peer") = false
    ∧ (fetchLLCWithRetry
        (fun _ _ => Attempt.getErr "read tcp: connection reset by peer")
        1 2).events = [Event.request 0 0] := by
  refine ⟨rfl, by decide, by decide⟩

/-- C4 (amended): a failure is retryable iff its message contains "timeout"
or "EOF" — request timeouts and truncated responses (EOF) are retried,
while other transport errors (e.g. connection resets), non-2xx statuses,
undecodable bodies and missing label fields are not. -/
theorem c4_retry_classification (e : String) :
    isRetryable (some e) = (goContains e "timeout" || goContains e "EOF")
    ∧ isRetryable none = false
    ∧ isRetryable (some "HTTP 请求失败: read tcp 192.0.2.1:443: i/o timeout") = true
    ∧ isRetryable (some "HTTP 请求失败: unexpected EOF") = true
    ∧ isRetryable (some "API 返回非 200 状态码: 503") = false
    ∧ isRetryable (some "API 返回非 200 状态码: 404") = false
    ∧ isRetryable (some "JSON 解析失败: unexpected end of JSON input") = false
    ∧ (fetchLLCWithRetry (fun _ _ => Attempt.getErr "i/o timeout") 1 2).events
        = [Event.request 0 0, Event.sleep 1, Event.request 0 1, Event.sleep 2,
           Event.request 0 2]
    ∧ (fetchLLCWithRetry (fun _ _ => Attempt.resp 503 (BodyResult.doc [])) 1 2).events
        = [Event.request 0 0]
    ∧ (fetchLLCWithRetry (fun _ _ => Attempt.getErr "connection reset by peer") 1 2).events
        = [Event.request 0 0] := by
  exact ⟨rfl, rfl, by decide, by decide, by decide, by decide, by decide,
    by decide, by decide, by decide⟩
